import Mathlib

/-!
Shallow embedding of the Chonlasak66/Project air-quality station scripts
(`src/backend.py`, `src/be.py`, `src/drive_hook.py`, `src/dashboard.py`,
`src/test/test.py`), together with theorems settling the frozen claims
about the telemetry pipeline, the PMS frame decoder, and the relay
auto-control.

Modelling conventions:
* bytes are `Nat` values (< 256 where the source reads real serial bytes);
* Python floats that are only ever decoded 16-bit integers are `Nat`;
  the float NaN "unavailable" marker of the PMS reader is `Option.none`;
* PM2.5 thresholds compared in the dashboard are modelled as `ℚ`
  (the comparisons involved are exact, no rounding occurs in the source);
* timestamps: the backend always stores second-precision Asia/Bangkok
  ISO-8601 strings produced by `datetime.now(TH_TZ).isoformat(timespec='seconds')`
  and re-parses them with `fromisoformat(...).astimezone(TH_TZ)`, which
  recovers exactly the Thai wall-clock fields; we model a timestamp
  directly as that parsed wall-clock time (`ThaiTime`);
* effects: the Firebase `update` call and the Drive upload may fail at
  runtime; each is modelled by an explicit boolean outcome (`writeOk`,
  `uploads : String → Bool`) passed to the embedded function, and every
  `log.warning` the modelled code path contains is returned in an explicit
  `logs` field, so that "what got logged" is part of the function's result.
-/

/-! ### PMS frame decoding (backend.py `PMSStreamReader.read`, lines 143-179) -/

/-- 16-bit big-endian combination `(hi << 8) | lo`, exactly the source's
`(pkt[10] << 8) | pkt[11]` expression. -/
def be16 (hi lo : Nat) : Nat := hi <<< 8 ||| lo

/-- For a byte-sized low operand the shift-or really is base-256 place value. -/
theorem be16_eq_of_lt (hi : Nat) {lo : Nat} (h : lo < 256) :
    be16 hi lo = 256 * hi + lo := by
  have h8 : lo < 2 ^ 8 := by norm_num at h ⊢; exact h
  unfold be16
  rw [Nat.shiftLeft_eq, Nat.mul_comm hi (2 ^ 8), ← Nat.mul_add_lt_is_or h8 hi]

/-- Index of the first occurrence of the two magic header bytes
`0x42 0x4D` in a byte list (the source's `self.buf.find(b"\x42\x4D")`,
`none` for Python's `-1`). -/
def findHeader : List Nat → Option Nat
  | a :: b :: rest =>
    if a = 0x42 ∧ b = 0x4D then some 0
    else (findHeader (b :: rest)).map (· + 1)
  | _ => none

example : findHeader [7, 0x42, 0x4D, 1] = some 1 := by decide
example : findHeader [0x42, 0x42, 0x4D] = some 1 := by decide
example : findHeader [0x4D, 0x42] = none := by decide

theorem findHeader_bound : ∀ {l : List Nat} {i : Nat},
    findHeader l = some i → i + 2 ≤ l.length := by
  intro l
  induction l with
  | nil => intro i h; simp [findHeader] at h
  | cons a rest ih =>
    intro i h
    cases rest with
    | nil => simp [findHeader] at h
    | cons b tl =>
      rw [findHeader] at h
      split at h
      · cases h; simp
      · simp only [Option.map_eq_some'] at h
        obtain ⟨j, hj, rfl⟩ := h
        have := ih hj
        simpa [Nat.succ_le_succ_iff] using Nat.succ_le_succ this

/-- The bytes at the header position really are the magic pair. -/
theorem findHeader_spec : ∀ {l : List Nat} {i : Nat},
    findHeader l = some i → l.getD i 0 = 0x42 ∧ l.getD (i + 1) 0 = 0x4D := by
  intro l
  induction l with
  | nil => intro i h; simp [findHeader] at h
  | cons a rest ih =>
    intro i h
    cases rest with
    | nil => simp [findHeader] at h
    | cons b tl =>
      rw [findHeader] at h
      split at h
      next heq =>
        cases h
        simpa using heq
      · simp only [Option.map_eq_some'] at h
        obtain ⟨j, hj, rfl⟩ := h
        simpa using ih hj

/-- Decode the three ATM PM values of a 32-byte frame located at index `i`
of byte list `l`: the source's
`pm1 = (pkt[10] << 8) | pkt[11]`, `pm25 = (pkt[12] << 8) | pkt[13]`,
`pm10 = (pkt[14] << 8) | pkt[15]` with `pkt = buf[idx:idx+32]`. -/
def decodeFrameAt (l : List Nat) (i : Nat) : Nat × Nat × Nat :=
  let pkt := (l.drop i).take 32
  (be16 (pkt.getD 10 0) (pkt.getD 11 0),
   be16 (pkt.getD 12 0) (pkt.getD 13 0),
   be16 (pkt.getD 14 0) (pkt.getD 15 0))

/-- State of `backend.py`'s `PMSStreamReader`: the byte accumulation buffer
`self.buf` and `self.last`.  The source keeps `last` as a triple of floats
that is either three decoded integers or three `float('nan')`; the NaN
"unavailable" marker is modelled as `none`. -/
structure PMSState where
  buf : List Nat
  last : Option (Nat × Nat × Nat)
deriving DecidableEq, Repr

/-- `PMSStreamReader.__init__` sets `self.buf = bytearray()` and
`self.last = (nan, nan, nan)`. -/
def PMSStreamReader.init : PMSState := ⟨[], none⟩

/-- `backend.py` `PMSStreamReader.read` (lines 143-171), non-exception path:
`incoming` is the chunk `self.ser.read(n)` delivered this tick.  When
`n <= 0` the source returns `self.last` without touching the buffer.
Otherwise it appends the chunk, searches once for the `0x42 0x4D` header,
and either (a) clears the buffer when no header is found, (b) keeps the
tail from the header when fewer than 32 bytes are available, or
(c) decodes exactly one 32-byte frame, updates `self.last` and consumes
through the frame.  In every branch the function returns `self.last`.
Result: (new state, value returned this tick). -/
def PMSStreamReader.read (s : PMSState) (incoming : List Nat) :
    PMSState × Option (Nat × Nat × Nat) :=
  if incoming.isEmpty then (s, s.last)
  else
    let buf := s.buf ++ incoming
    match findHeader buf with
    | none => (⟨[], s.last⟩, s.last)
    | some idx =>
      if buf.length - idx < 32 then
        (⟨buf.drop idx, s.last⟩, s.last)
      else
        let v := decodeFrameAt buf idx
        (⟨buf.drop (idx + 32), some v⟩, some v)

/-- State of `dashboard.py`'s `PMSReader`: buffer plus `self.last`, which the
source initialises to `{"pm1": 0.0, "pm25": 0.0, "pm10": 0.0}` — literal
zeros, not NaN. -/
structure DashState where
  buf : List Nat
  last : Nat × Nat × Nat
deriving DecidableEq, Repr

/-- `dashboard.py` `PMSReader.__init__` (success path): empty buffer and a
last value of all zeros. -/
def PMSReader.init : DashState := ⟨[], (0, 0, 0)⟩

/-- The dashboard's `int.from_bytes(frame[o:o+2], 'big')`. -/
def fromBytes2 (hi lo : Nat) : Nat := 256 * hi + lo

/-- Dashboard frame decode: values at byte offsets 10-11, 12-13, 14-15 of
the 32-byte frame starting at index `j`. -/
def dashDecodeFrameAt (l : List Nat) (j : Nat) : Nat × Nat × Nat :=
  let frame := (l.drop j).take 32
  (fromBytes2 (frame.getD 10 0) (frame.getD 11 0),
   fromBytes2 (frame.getD 12 0) (frame.getD 13 0),
   fromBytes2 (frame.getD 14 0) (frame.getD 15 0))

/-- `dashboard.py` `PMSReader._parse_frames` (lines 204-223): decode every
complete frame in the buffer, remembering the latest decoded values;
when no header is found a buffer longer than one byte is truncated to its
final byte, and an incomplete frame is kept from its header onward.
The source re-checks `frame[0] == 0x42 and frame[1] == 0x4D` before
decoding (and skips the frame otherwise), which we reproduce. -/
def PMSReader.parseFrames (s : DashState) : DashState :=
  match h : findHeader s.buf with
  | none =>
    if 1 < s.buf.length then ⟨s.buf.drop (s.buf.length - 1), s.last⟩ else s
  | some j =>
    if h32 : s.buf.length - j < 32 then
      if 0 < j then ⟨s.buf.drop j, s.last⟩ else s
    else
      let frame := (s.buf.drop j).take 32
      if frame.getD 0 0 = 0x42 ∧ frame.getD 1 0 = 0x4D then
        PMSReader.parseFrames ⟨s.buf.drop (j + 32), dashDecodeFrameAt s.buf j⟩
      else
        PMSReader.parseFrames ⟨s.buf.drop (j + 32), s.last⟩
termination_by s.buf.length
decreasing_by
  all_goals
    have hb := findHeader_bound h
    simp only [List.length_drop]
    omega

/-- `dashboard.py` `PMSReader.read_once` (non-exception path): append the
waiting bytes, parse frames, return `self.last`. -/
def PMSReader.readOnce (s : DashState) (incoming : List Nat) :
    DashState × (Nat × Nat × Nat) :=
  if incoming.isEmpty then (s, s.last)
  else
    let s1 := PMSReader.parseFrames ⟨s.buf ++ incoming, s.last⟩
    (s1, s1.last)

/-- `src/test/test.py` `read_pms` (lines 10-24): a single 32-byte read is
decoded only when it has exactly 32 bytes and starts with the magic pair;
otherwise the function returns `None`. -/
def read_pms (data : List Nat) : Option (Nat × Nat × Nat) :=
  if data.length = 32 ∧ data.getD 0 0 = 0x42 ∧ data.getD 1 0 = 0x4D then
    some (be16 (data.getD 10 0) (data.getD 11 0),
          be16 (data.getD 12 0) (data.getD 13 0),
          be16 (data.getD 14 0) (data.getD 15 0))
  else none

/-! ### Timestamps and sink paths (backend.py `RTDBSink.flush`, lines 280-305) -/

/-- A second-precision Asia/Bangkok wall-clock time, the result of the
source's `datetime.fromisoformat(ts_iso).astimezone(TH_TZ)` on the
second-precision Thai ISO strings the backend itself produces. -/
structure ThaiTime where
  year : Nat
  month : Nat
  day : Nat
  hour : Nat
  minute : Nat
  second : Nat
deriving DecidableEq, Repr

/-- Field ranges guaranteed by Python's `datetime`
(`1 <= month <= 12`, etc.); only the width bounds matter here. -/
def ThaiTime.valid (t : ThaiTime) : Prop :=
  t.year < 10000 ∧ t.month < 100 ∧ t.day < 100 ∧
  t.hour < 100 ∧ t.minute < 100 ∧ t.second < 100

instance (t : ThaiTime) : Decidable t.valid := by
  unfold ThaiTime.valid; infer_instance

/-- Python's `f"{n:02d}"` for `n < 100`: exactly two decimal digits. -/
def pad2 (n : Nat) : String := ⟨[Nat.digitChar (n / 10), Nat.digitChar (n % 10)]⟩

/-- Python's `f"{n:04d}"` for `n < 10000`: exactly four decimal digits. -/
def pad4 (n : Nat) : String :=
  ⟨[Nat.digitChar (n / 1000), Nat.digitChar (n / 100 % 10),
    Nat.digitChar (n / 10 % 10), Nat.digitChar (n % 10)]⟩

/-- `ymd = f"{d.year:04d}{d.month:02d}{d.day:02d}"`. -/
def ymdStr (t : ThaiTime) : String := pad4 t.year ++ pad2 t.month ++ pad2 t.day

/-- `hms = f"{d.hour:02d}{d.minute:02d}{d.second:02d}"`. -/
def hmsStr (t : ThaiTime) : String := pad2 t.hour ++ pad2 t.minute ++ pad2 t.second

/-- `path = f"/{self.root}/{DEVICE_ID}/{sensor}/{ymd}/{hms}"`. -/
def sinkPath (root dev sensor : String) (t : ThaiTime) : String :=
  "/" ++ root ++ "/" ++ dev ++ "/" ++ sensor ++ "/" ++ ymdStr t ++ "/" ++ hmsStr t

example : sinkPath "pm_readings" "pi5" "indoor" ⟨2024, 3, 7, 9, 5, 30⟩ =
    "/pm_readings/pi5/indoor/20240307/090530" := by decide

/-! ### RTDBSink state machine (backend.py lines 245-305; be.py is identical) -/

/-- One buffered row dict: `{"ts": ..., "sensor": ..., "pm1": ..., "pm25":
..., "pm10": ..., ...}`.  The timestamp is modelled already parsed (see
`ThaiTime`); the numeric fields are carried opaquely. -/
structure Row where
  ts : ThaiTime
  sensor : String
  pm1 : Nat
  pm25 : Nat
  pm10 : Nat
deriving DecidableEq, Repr

/-- Mutable fields of `RTDBSink`. `refOk` models `self._ref is not None`. -/
structure SinkState where
  enabled : Bool
  refOk : Bool
  root : String
  buffer : List Row
  lastFlush : Nat
  batchSize : Nat
  flushSecs : Nat
  maxBuffer : Nat
deriving DecidableEq, Repr

/-- Python's `root.strip("/")`. -/
def stripSlashes (s : String) : String :=
  ⟨((s.data.dropWhile (· = '/')).reverse.dropWhile (· = '/')).reverse⟩

example : stripSlashes "/pm_readings/" = "pm_readings" := by decide

/-- `RTDBSink.__init__` (lines 250-267).  `fbOk` is the module-level
`_fb_ok`, `dbUrlSet` is `bool(db_url)`, and `initOk` tells whether the
`credentials.Certificate` / `initialize_app` / `rtdb.reference` block ran
without raising.  On failure the constructor logs a warning and sets
`self.enabled = False` — it does not raise. -/
def RTDBSink.init (fbOk dbUrlSet initOk : Bool) (root : String)
    (batchSize flushSecs maxBuffer now : Nat) : SinkState :=
  let enabled0 := fbOk && dbUrlSet
  if enabled0 then
    if initOk then
      ⟨true, true, stripSlashes root, [], now, batchSize, flushSecs, maxBuffer⟩
    else
      ⟨false, false, stripSlashes root, [], now, batchSize, flushSecs, maxBuffer⟩
  else
    ⟨false, false, stripSlashes root, [], now, batchSize, flushSecs, maxBuffer⟩

/-- Python-dict assignment `updates[path] = data`: overwrite in place if the
key exists (insertion order of the dict is preserved), else append. -/
def insertUpdate (us : List (String × Row)) (p : String) (r : Row) :
    List (String × Row) :=
  if us.any (fun q => q.1 = p) then
    us.map (fun q => if q.1 = p then (p, r) else q)
  else us ++ [(p, r)]

/-- The `for row in batch:` loop of `flush` building `updates`. -/
def buildUpdates (root dev : String) (batch : List Row) : List (String × Row) :=
  batch.foldl (fun us r => insertUpdate us (sinkPath root dev r.sensor r.ts) r) []

/-- Result of one `flush`/`put` call: the successor state, the mapping the
remote `update` call received when one succeeded (otherwise `[]`), and the
`log.warning` lines emitted. -/
structure SinkStep where
  state : SinkState
  written : List (String × Row)
  logs : List String
deriving DecidableEq, Repr

/-- `RTDBSink.flush` (lines 280-305).  `dev` is the module global
`DEVICE_ID`; `writeOk` is whether `self._ref.update(updates)` returned
without raising (only relevant when `refOk`).  Note the source moves the
whole buffer out (`batch = self.buffer; self.buffer = []`) *before* the
try-block, and the except-branch only logs — the batch is not restored. -/
def RTDBSink.flush (dev : String) (writeOk : Bool) (now : Nat)
    (s : SinkState) : SinkStep :=
  if ¬s.enabled ∨ s.buffer.isEmpty then ⟨s, [], []⟩
  else
    let batch := s.buffer
    let s1 := { s with buffer := [] }
    if s.refOk then
      if writeOk then
        ⟨{ s1 with lastFlush := now }, buildUpdates s.root dev batch, []⟩
      else
        ⟨s1, [], ["RTDB flush failed"]⟩
    else
      ⟨{ s1 with lastFlush := now }, [], []⟩

/-- Python's `self.buffer[-self.max_buffer//2:]`.  Unary minus binds
tighter than `//`, so the slice start is `(-max_buffer)//2 =
-ceil(max_buffer/2)`; a negative start keeps that many trailing elements,
and the start `0` arising for `max_buffer = 0` keeps the whole list. -/
def trimKeepLast (l : List Row) (maxBuffer : Nat) : List Row :=
  let k := (maxBuffer + 1) / 2
  if k = 0 then l else l.drop (l.length - k)

/-- `RTDBSink.put` (lines 269-278): no-op when disabled; otherwise trim the
buffer if it reached `max_buffer`, append the row, and flush when the
batch-size or elapsed-time trigger fires.  There is no log statement in
`put` itself. -/
def RTDBSink.put (dev : String) (writeOk : Bool) (now : Nat) (r : Row)
    (s : SinkState) : SinkStep :=
  if ¬s.enabled then ⟨s, [], []⟩
  else
    let buf0 := if s.maxBuffer ≤ s.buffer.length
                then trimKeepLast s.buffer s.maxBuffer else s.buffer
    let s1 := { s with buffer := buf0 ++ [r] }
    if s.batchSize ≤ s1.buffer.length ∨ s.flushSecs ≤ now - s.lastFlush then
      RTDBSink.flush dev writeOk now s1
    else ⟨s1, [], []⟩

/-! ### DriveUploader queue (drive_hook.py lines 217-274) -/

/-- `DriveUploader.enqueue` (lines 217-223): `p` is the absolute path;
`onDisk` models `os.path.exists(p)`.  A path already present in the queue
is not appended (insert-if-absent keyed on the path string). -/
def DriveUploader.enqueue (onDisk : Bool) (q : List String) (p : String) :
    List String :=
  if p ≠ "" ∧ onDisk ∧ p ∉ q then q ++ [p] else q

/-- The `for p in list(self._queue):` loop of `DriveUploader.process_queue`
(lines 256-272), instrumented: returns the ordered list of paths on which
`upload_now` was attempted this pass and the new queue.  `uploads p` is
whether `self.upload_now(p)` returned `True` (an exception counts as
`False`, exactly as the source's `except` branch sets `ok = False`). -/
def processLoop (uploads : String → Bool) (maxItems : Nat) :
    List String → Nat → List String × List String
  | [], _ => ([], [])
  | p :: rest, processed =>
    if maxItems ≤ processed then
      ((processLoop uploads maxItems rest processed).1,
       p :: (processLoop uploads maxItems rest processed).2)
    else if uploads p then
      (p :: (processLoop uploads maxItems rest (processed + 1)).1,
       (processLoop uploads maxItems rest (processed + 1)).2)
    else
      (p :: (processLoop uploads maxItems rest processed).1,
       p :: (processLoop uploads maxItems rest processed).2)

/-- `DriveUploader.process_queue` (lines 251-274): no-op when disabled or
when the queue is empty; otherwise run the loop with `processed = 0` and
keep the rebuilt queue. -/
def DriveUploader.processQueue (enabled : Bool) (uploads : String → Bool)
    (maxItems : Nat) (q : List String) : List String :=
  if ¬enabled then q
  else if q.isEmpty then q
  else (processLoop uploads maxItems q 0).2

/-- `DriveUploader.__init__` (drive_hook.py lines 46-85): the resulting
`self.enabled` flag.  `enabledArg` is the `enabled=` argument, `libsOk`
the module-level `_gdrive_ok`, and `initOk` whether the
`_init_service`/`_ensure_folder`/`_load_queue`/`_load_manifest` block ran
without raising; on failure the constructor prints and sets
`self.enabled = False` instead of raising. -/
def DriveUploader.initEnabled (enabledArg libsOk initOk : Bool) : Bool :=
  (enabledArg && libsOk) && initOk

/-! ### Dashboard relay auto-control (dashboard.py `_auto_control`, lines 600-611) -/

/-- `desired_on = (pm >= on_th) if not currently_on else (pm >= off_th)`
with `off_th = max(0.0, on_th - hyster)`; `states` is
`self.relays.states.values()`. -/
def autoDesired (states : List Bool) (pm onTh hyster : ℚ) : Bool :=
  let offTh := max 0 (onTh - hyster)
  let currentlyOn := states.any id
  if currentlyOn then decide (offTh ≤ pm) else decide (onTh ≤ pm)

/-- `PMDashboard._auto_control`: when auto mode is off the relay states are
untouched; otherwise `self.relays.set_all(desired_on)` drives every relay
to the same computed state. -/
def autoControl (autoEnabled : Bool) (states : List Bool)
    (pm onTh hyster : ℚ) : List Bool :=
  if ¬autoEnabled then states
  else states.map (fun _ => autoDesired states pm onTh hyster)

/-! ### Helper lemmas -/

theorem getD_drop_take (l : List Nat) (i k : Nat) (hk : k < 32) :
    ((l.drop i).take 32).getD k 0 = l.getD (i + k) 0 := by
  simp only [List.getD_eq_getElem?_getD]
  rw [List.getElem?_take, if_pos hk, List.getElem?_drop]

/-! ### C10: relay auto-control hysteresis -/

/-- C10: in auto mode all relays are driven as one group: when every relay
is off the group turns on exactly when the selected PM2.5 reading is
`≥ on_th`; once any relay is on it stays on exactly while the reading is
`≥ max(0, on_th - hyster)` (so it turns off only when the reading drops
below that clamped, never-negative off-threshold); and every relay
receives the same computed state. -/
theorem claim_C10_auto_group_hysteresis (states : List Bool)
    (pm onTh hyster : ℚ) :
    (0 : ℚ) ≤ max 0 (onTh - hyster) ∧
    autoControl true states pm onTh hyster
      = states.map (fun _ => autoDesired states pm onTh hyster) ∧
    (states.any id = false →
      (autoDesired states pm onTh hyster = true ↔ onTh ≤ pm)) ∧
    (states.any id = true →
      (autoDesired states pm onTh hyster = true ↔ max 0 (onTh - hyster) ≤ pm)) := by
  refine ⟨le_max_left 0 _, by simp [autoControl], ?_, ?_⟩
  · intro hoff
    simp [autoDesired, hoff]
  · intro hon
    simp [autoDesired, hon]

/-- Witness for C10 at concrete inputs: with all four relays off and the
reading exactly at the on-threshold, the group turns on; with a relay on,
a reading of 31 keeps the group on against off-threshold 30. -/
theorem claim_C10_witness :
    autoDesired [false, false, false, false] 35 35 5 = true ∧
    autoDesired [true, false, false, false] 31 35 5 = true := by
  constructor
  · exact (claim_C10_auto_group_hysteresis [false, false, false, false]
      35 35 5).2.2.1 (by decide) |>.mpr (by norm_num)
  · exact (claim_C10_auto_group_hysteresis [true, false, false, false]
      31 35 5).2.2.2 (by decide) |>.mpr (by norm_num)

/-! ### C8: big-endian field extraction from a 32-byte frame -/

/-- C8: whenever the byte stream buffered by `PMSStreamReader.read` contains
a complete 32-byte frame (the first `0x42 0x4D` header sits at index `i`
with at least 32 bytes from there on), the reader returns pm1, pm2.5 and
pm10 equal to the 16-bit big-endian unsigned integers at byte offsets
10-11, 12-13 and 14-15 of that frame; and `test.py`'s `read_pms` decodes
the same offsets of a single 32-byte read. -/
theorem claim_C8_be_offsets (s : PMSState) (incoming : List Nat) (i : Nat)
    (hne : incoming ≠ [])
    (hfind : findHeader (s.buf ++ incoming) = some i)
    (hlen : i + 32 ≤ (s.buf ++ incoming).length)
    (hbytes : ∀ k < (s.buf ++ incoming).length, (s.buf ++ incoming).getD k 0 < 256) :
    (PMSStreamReader.read s incoming).2 =
      some (256 * (s.buf ++ incoming).getD (i + 10) 0 + (s.buf ++ incoming).getD (i + 11) 0,
            256 * (s.buf ++ incoming).getD (i + 12) 0 + (s.buf ++ incoming).getD (i + 13) 0,
            256 * (s.buf ++ incoming).getD (i + 14) 0 + (s.buf ++ incoming).getD (i + 15) 0) ∧
    (∀ frame : List Nat, frame.length = 32 →
      frame.getD 0 0 = 0x42 → frame.getD 1 0 = 0x4D →
      (∀ k < frame.length, frame.getD k 0 < 256) →
      read_pms frame =
        some (256 * frame.getD 10 0 + frame.getD 11 0,
              256 * frame.getD 12 0 + frame.getD 13 0,
              256 * frame.getD 14 0 + frame.getD 15 0)) := by
  constructor
  · unfold PMSStreamReader.read
    rw [if_neg (by simpa using hne)]
    simp only [hfind]
    rw [if_neg (by omega)]
    simp only [decodeFrameAt]
    rw [getD_drop_take (s.buf ++ incoming) i 10 (by norm_num),
        getD_drop_take (s.buf ++ incoming) i 11 (by norm_num),
        getD_drop_take (s.buf ++ incoming) i 12 (by norm_num),
        getD_drop_take (s.buf ++ incoming) i 13 (by norm_num),
        getD_drop_take (s.buf ++ incoming) i 14 (by norm_num),
        getD_drop_take (s.buf ++ incoming) i 15 (by norm_num),
        be16_eq_of_lt _ (hbytes (i + 11) (by omega)),
        be16_eq_of_lt _ (hbytes (i + 13) (by omega)),
        be16_eq_of_lt _ (hbytes (i + 15) (by omega))]
  · intro frame h32 h0 h1 hb
    unfold read_pms
    rw [if_pos ⟨h32, h0, h1⟩,
        be16_eq_of_lt _ (hb 11 (by omega)), be16_eq_of_lt _ (hb 13 (by omega)),
        be16_eq_of_lt _ (hb 15 (by omega))]

/-- Witness for C8: a concrete buffered stream with two garbage bytes, then
a full frame carrying pm1 = 258, pm2.5 = 3, pm10 = 515. -/
theorem claim_C8_witness :
    (PMSStreamReader.read ⟨[9, 9], none⟩ [0x42, 0x4D, 0, 28, 0, 0, 0, 0, 0, 0,
        1, 2, 0, 3, 2, 3, 0, 0, 0, 0, 0, 0, 0, 0, 0, 0, 0, 0, 0, 0, 0, 0]).2
      = some (258, 3, 515) := by
  have h := (claim_C8_be_offsets ⟨[9, 9], none⟩
      [0x42, 0x4D, 0, 28, 0, 0, 0, 0, 0, 0, 1, 2, 0, 3, 2, 3,
       0, 0, 0, 0, 0, 0, 0, 0, 0, 0, 0, 0, 0, 0, 0, 0] 2
      (by decide) (by decide) (by decide) (by decide)).1
  rw [h]
  decide

/-! ### C7: behaviour when no frame decodes this tick -/

/-- Counterexample to C7 as stated: a backend reader that previously decoded
`(10, 20, 30)` and receives three headerless bytes returns the stale
`(10, 20, 30)` — not the NaN marker; and the dashboard reader, which
initialises `last` to zeros, returns the literal `0` for pm2.5 on an
undecodable tick, although the claim says the value is never 0. -/
theorem claim_C7_counterexample :
    (PMSStreamReader.read ⟨[], some (10, 20, 30)⟩ [1, 2, 3]).2 = some (10, 20, 30) ∧
    (PMSReader.readOnce PMSReader.init [1, 2, 3]).2 = (0, 0, 0) := by
  constructor
  · decide
  · rw [PMSReader.readOnce]
    rw [if_neg (by decide)]
    rw [PMSReader.parseFrames]
    decide

/-- C7 amended: on a tick with no decodable frame (no header in the buffered
bytes, or a header with fewer than 32 bytes available) the backend reader
returns its *previous* `last` value unchanged — which is the NaN marker
only before any frame was ever decoded (as at `__init__`) or after a read
exception; the dashboard reader's initial value is the number 0, not a
NaN marker. -/
theorem claim_C7_amended_stale_last (s : PMSState) (incoming : List Nat) :
    (findHeader (s.buf ++ incoming) = none →
      (PMSStreamReader.read s incoming).2 = s.last) ∧
    (∀ i, findHeader (s.buf ++ incoming) = some i →
      (s.buf ++ incoming).length - i < 32 →
      (PMSStreamReader.read s incoming).2 = s.last) ∧
    PMSStreamReader.init.last = none ∧
    PMSReader.init.last = (0, 0, 0) := by
  refine ⟨?_, ?_, rfl, rfl⟩
  · intro hnone
    unfold PMSStreamReader.read
    split
    · rfl
    · simp only [hnone]
  · intro i hsome hshort
    unfold PMSStreamReader.read
    split
    · rfl
    · simp only [hsome]
      rw [if_pos hshort]

/-- Witness for C7 (amended): headerless garbage leaves a previously decoded
value in place, and a bare header with no body also returns the stale value. -/
theorem claim_C7_amended_witness :
    (PMSStreamReader.read ⟨[7], some (1, 2, 3)⟩ [8, 9]).2 = some (1, 2, 3) ∧
    (PMSStreamReader.read ⟨[], some (4, 5, 6)⟩ [0x42, 0x4D]).2 = some (4, 5, 6) := by
  constructor
  · exact (claim_C7_amended_stale_last ⟨[7], some (1, 2, 3)⟩ [8, 9]).1 (by decide)
  · exact (claim_C7_amended_stale_last ⟨[], some (4, 5, 6)⟩ [0x42, 0x4D]).2.1
      0 (by decide) (by decide)

/-! ### Queue helper lemmas and shared sample data -/

/-- A path that fails to upload is kept in the rebuilt queue. -/
theorem processLoop_mem_of_fail (uploads : String → Bool) (m : Nat) :
    ∀ (l : List String) (c : Nat) (p : String), p ∈ l → uploads p = false →
      p ∈ (processLoop uploads m l c).2 := by
  intro l
  induction l with
  | nil => intro c p hp _; simp at hp
  | cons a rest ih =>
    intro c p hp hf
    rw [processLoop]
    rcases List.mem_cons.mp hp with rfl | hmem
    · split
      · exact List.mem_cons_self _ _
      · rw [if_neg (by simp [hf])]
        exact List.mem_cons_self _ _
    · split
      · exact List.mem_cons_of_mem _ (ih c p hmem hf)
      · split
        · exact ih (c + 1) p hmem hf
        · exact List.mem_cons_of_mem _ (ih c p hmem hf)

/-- The paths attempted by one `process_queue` pass form an order-preserving
selection (a sublist) of the queue: attempts happen oldest-first. -/
theorem processLoop_attempts_sublist (uploads : String → Bool) (m : Nat) :
    ∀ (l : List String) (c : Nat), (processLoop uploads m l c).1.Sublist l := by
  intro l
  induction l with
  | nil => intro c; simp [processLoop]
  | cons a rest ih =>
    intro c
    rw [processLoop]
    split
    · exact (ih c).cons a
    · split
      · exact (ih (c + 1)).cons₂ a
      · exact (ih c).cons₂ a

/-- Folding the `updates[path] = data` loop over rows whose paths are fresh
and mutually distinct just appends the pairs in row order. -/
theorem buildUpdates_go (root dev : String) :
    ∀ (batch : List Row) (us : List (String × Row)),
      (∀ r ∈ batch, ∀ q ∈ us, q.1 ≠ sinkPath root dev r.sensor r.ts) →
      (batch.map (fun r => sinkPath root dev r.sensor r.ts)).Nodup →
      batch.foldl (fun acc r => insertUpdate acc (sinkPath root dev r.sensor r.ts) r) us
        = us ++ batch.map (fun r => (sinkPath root dev r.sensor r.ts, r)) := by
  intro batch
  induction batch with
  | nil => intro us _ _; simp
  | cons r rest ih =>
    intro us hfresh hnodup
    have hnot : (us.any (fun q => q.1 = sinkPath root dev r.sensor r.ts)) = false := by
      rw [List.any_eq_false]
      intro q hq
      simpa using hfresh r (List.mem_cons_self _ _) q hq
    simp only [List.foldl_cons, List.map_cons, List.nodup_cons] at *
    rw [insertUpdate, if_neg (by simp [hnot])]
    rw [ih (us ++ [(sinkPath root dev r.sensor r.ts, r)]) ?_ hnodup.2]
    · simp
    · intro r' hr' q hq
      rcases List.mem_append.mp hq with h | h
      · exact hfresh r' (List.mem_cons_of_mem _ hr') q h
      · simp at h
        subst h
        simp only []
        intro hbad
        exact hnodup.1 (by
          rw [hbad]
          exact List.mem_map.mpr ⟨r', hr', rfl⟩)

/-- Shared concrete sample data for the closed counterexamples/witnesses. -/
def sampleT (n : Nat) : ThaiTime := ⟨2024, 5, 6, 7, 8, n⟩

def sampleRow (n : Nat) : Row := ⟨sampleT n, "indoor", 1, 2, 3⟩

/-- A healthy, enabled sink as `RTDBSink.__init__` builds it with the
default configuration (`batch_size=50`, `flush_secs=3`, `max_buffer=5000`),
initialised at time 1000. -/
def sinkReady : SinkState :=
  RTDBSink.init true true true "pm_readings" 50 3 5000 1000

example : sinkReady =
    ⟨true, true, "pm_readings", [], 1000, 50, 3, 5000⟩ := by decide

/-! ### C1: fate of a batch whose bulk sink write fails -/

/-- Counterexample to C1 as stated: an enabled sink holding two pending
rows performs a bulk write that fails (`writeOk = false`); afterwards its
buffer — the only place pending rows live — is empty, so neither record of
the failed batch remains pending or can be retried.  The source moved the
batch out of `self.buffer` before the `try` block and the `except` branch
only logs. -/
theorem claim_C1_counterexample :
    ({ sinkReady with buffer := [sampleRow 1, sampleRow 2] } : SinkState).buffer ≠ [] ∧
    (RTDBSink.flush "pi" false 1003
      { sinkReady with buffer := [sampleRow 1, sampleRow 2] }).state.buffer = [] := by
  constructor
  · decide
  · decide

/-- C1 amended: only the Drive uploader has the claimed property — a queued
path whose upload fails stays in the queue for the next pass.  For the
RTDB sink the property fails: *whatever* rows were in the buffer, a flush
whose write fails always ends with an empty buffer (the batch is dropped,
not retried). -/
theorem claim_C1_amended_failed_batch (uploads : String → Bool)
    (maxItems : Nat) (q : List String) (p : String)
    (dev : String) (now : Nat) (s : SinkState) :
    (p ∈ q → uploads p = false →
      p ∈ DriveUploader.processQueue true uploads maxItems q) ∧
    (s.enabled = true → (RTDBSink.flush dev false now s).state.buffer = []) := by
  constructor
  · intro hp hf
    unfold DriveUploader.processQueue
    rw [if_neg (by simp)]
    rw [if_neg (by simp [List.isEmpty_iff]; rintro rfl; simp at hp)]
    exact processLoop_mem_of_fail uploads maxItems q 0 p hp hf
  · intro hen
    unfold RTDBSink.flush
    split
    · next hc =>
      rcases hc with hc | hc
      · simp [hen] at hc
      · simpa [List.isEmpty_iff] using hc
    · split
      · split
        · rfl
        · rfl
      · rfl

/-- Witness for C1 (amended): a concrete failing uploader keeps the path
queued, and a concrete failing flush leaves nothing in the sink buffer. -/
theorem claim_C1_amended_witness :
    "a.csv" ∈ DriveUploader.processQueue true (fun _ => false) 50 ["a.csv", "b.csv"] ∧
    (RTDBSink.flush "pi" false 1003
      { sinkReady with buffer := [sampleRow 1] }).state.buffer = [] := by
  constructor
  · exact (claim_C1_amended_failed_batch (fun _ => false) 50 ["a.csv", "b.csv"]
      "a.csv" "pi" 1003 sinkReady).1 (by decide) rfl
  · exact (claim_C1_amended_failed_batch (fun _ => false) 50 []
      "" "pi" 1003 { sinkReady with buffer := [sampleRow 1] }).2 rfl

/-! ### C2: at-most-once identity on put -/

/-- Counterexample to C2 as stated: two `RTDBSink.put` calls with the *same*
row (hence identical (deviceId, timestamp, sensor)) leave two entries in
the buffer — `put` appends unconditionally, there is no identity key. -/
theorem claim_C2_counterexample :
    ((RTDBSink.put "pi" true 1001 (sampleRow 1)
        (RTDBSink.put "pi" true 1001 (sampleRow 1) sinkReady).state).state).buffer
      = [sampleRow 1, sampleRow 1] := by
  decide

/-- C2 amended: the insert-if-absent behaviour exists only in
`DriveUploader.enqueue`, keyed on the absolute file path (a second enqueue
of a queued path is a no-op); `RTDBSink.put` on an enabled sink appends
every row unconditionally (when neither flush trigger fires), so duplicate
identities coexist in the buffer. -/
theorem claim_C2_amended_dedup (onDisk : Bool) (q : List String) (p : String)
    (dev : String) (wk : Bool) (now : Nat) (r : Row) (s : SinkState) :
    (p ∈ q → DriveUploader.enqueue onDisk q p = q) ∧
    (s.enabled = true → s.buffer.length < s.maxBuffer →
      s.buffer.length + 1 < s.batchSize → now - s.lastFlush < s.flushSecs →
      (RTDBSink.put dev wk now r s).state.buffer = s.buffer ++ [r]) := by
  constructor
  · intro hp
    unfold DriveUploader.enqueue
    rw [if_neg (by simp [hp])]
  · intro hen hlen hbatch htime
    simp only [RTDBSink.put]
    rw [if_neg (by simp [hen])]
    have htrim : ¬ s.maxBuffer ≤ s.buffer.length := by omega
    rw [if_neg htrim]
    have htrig : ¬ (s.batchSize ≤ (s.buffer ++ [r]).length ∨
        s.flushSecs ≤ now - s.lastFlush) := by
      push_neg
      simp only [List.length_append, List.length_cons, List.length_nil]
      omega
    rw [if_neg htrig]

/-- Witness for C2 (amended): re-enqueueing a queued path changes nothing,
and a put on a quiet sink appends exactly one row. -/
theorem claim_C2_amended_witness :
    DriveUploader.enqueue true ["a.csv"] "a.csv" = ["a.csv"] ∧
    (RTDBSink.put "pi" true 1001 (sampleRow 1) sinkReady).state.buffer
      = [sampleRow 1] := by
  constructor
  · exact (claim_C2_amended_dedup true ["a.csv"] "a.csv"
      "pi" true 1001 (sampleRow 1) sinkReady).1 (by decide)
  · have := (claim_C2_amended_dedup true [] "" "pi" true 1001 (sampleRow 1)
      sinkReady).2 rfl (by decide) (by decide) (by decide)
    simpa using this

/-! ### C3: behaviour when the storage medium is unavailable at startup -/

/-- Counterexample to C3 as stated: with firebase-admin importable and a
remote URL configured but the init block failing (`initOk = false`),
`RTDBSink.__init__` completes normally with `enabled = False` — no
`StorageUnavailable` (or any) error is raised — and a subsequent `put` is
a silent no-op: the accepted record is discarded while the process
carries on ingesting. -/
theorem claim_C3_counterexample :
    (RTDBSink.init true true false "pm_readings" 50 3 5000 1000).enabled = false ∧
    RTDBSink.put "pi" true 1001 (sampleRow 1)
        (RTDBSink.init true true false "pm_readings" 50 3 5000 1000)
      = ⟨RTDBSink.init true true false "pm_readings" 50 3 5000 1000, [], []⟩ := by
  constructor
  · decide
  · decide

/-- C3 amended: when the sink's backing store cannot be initialised (or the
URL/credentials are absent) the constructor returns normally with
`enabled = False`, and every later `put` on a disabled sink is a silent
no-op that drops the record; the Drive uploader's constructor likewise
swallows its init failure into `enabled = False`.  There is no fail-fast
`StorageUnavailable` and no refusal to ingest. -/
theorem claim_C3_amended_silent_disable (fbOk dbUrlSet : Bool)
    (root dev : String) (bs fs mb now now2 : Nat) (wk : Bool) (r : Row)
    (enabledArg libsOk : Bool) (s : SinkState) :
    (RTDBSink.init fbOk dbUrlSet false root bs fs mb now).enabled = false ∧
    (s.enabled = false → RTDBSink.put dev wk now2 r s = ⟨s, [], []⟩) ∧
    DriveUploader.initEnabled enabledArg libsOk false = false := by
  refine ⟨?_, ?_, by simp [DriveUploader.initEnabled]⟩
  · unfold RTDBSink.init
    cases fbOk <;> cases dbUrlSet <;> rfl
  · intro hdis
    unfold RTDBSink.put
    rw [if_pos (by simp [hdis])]

/-- Witness for C3 (amended): the concrete disabled sink of the
counterexample scenario swallows a put. -/
theorem claim_C3_amended_witness :
    RTDBSink.put "pi" true 1001 (sampleRow 2)
        (RTDBSink.init true true false "pm_readings" 50 3 5000 1000)
      = ⟨RTDBSink.init true true false "pm_readings" 50 3 5000 1000, [], []⟩ := by
  exact (claim_C3_amended_silent_disable true true "pm_readings" "pi"
    50 3 5000 1000 1001 true (sampleRow 2) false false
    (RTDBSink.init true true false "pm_readings" 50 3 5000 1000)).2.1 (by decide)

/-! ### C4: backoff between failed attempts -/

/-- Counterexample to C4 as stated: after a failed flush at time 1003 the
sink's `last_flush` still reads 1000, so the very next `put` (same time
1003) immediately triggers another flush attempt — the emitted warning
proves the attempt happened with *zero* added delay — and the same repeats
after the second consecutive failure.  The inter-attempt delay is not
strictly increased, nothing doubles from 1, and no 60-unit cap exists. -/
theorem claim_C4_counterexample :
    (RTDBSink.put "pi" false 1003 (sampleRow 2)
        (RTDBSink.flush "pi" false 1003
          { sinkReady with buffer := [sampleRow 1] }).state).logs
      = ["RTDB flush failed"] ∧
    (RTDBSink.put "pi" false 1003 (sampleRow 3)
        (RTDBSink.put "pi" false 1003 (sampleRow 2)
          (RTDBSink.flush "pi" false 1003
            { sinkReady with buffer := [sampleRow 1] }).state).state).logs
      = ["RTDB flush failed"] ∧
    (RTDBSink.flush "pi" false 1003
        { sinkReady with buffer := [sampleRow 1] }).state.lastFlush = 1000 := by
  refine ⟨by decide, by decide, by decide⟩

/-- C4 amended: the uploader has no backoff state at all.  On a sink whose
remote reference exists, a failed bulk write changes none of the fields
that gate the next attempt — `last_flush`, `flush_secs` and `batch_size`
are all left exactly as they were (so the next attempt is admitted by the
same constant `flush_secs` threshold, with no doubling and no cap) — while
a successful write merely resets `last_flush` to the current time. -/
theorem claim_C4_amended_no_backoff (dev : String) (now : Nat)
    (s : SinkState) (href : s.refOk = true) :
    (RTDBSink.flush dev false now s).state.lastFlush = s.lastFlush ∧
    (RTDBSink.flush dev false now s).state.flushSecs = s.flushSecs ∧
    (RTDBSink.flush dev false now s).state.batchSize = s.batchSize ∧
    (s.enabled = true → s.buffer ≠ [] →
      (RTDBSink.flush dev true now s).state.lastFlush = now) := by
  refine ⟨?_, ?_, ?_, ?_⟩
  · unfold RTDBSink.flush
    split
    · rfl
    · rfl
  · unfold RTDBSink.flush
    split
    · rfl
    · rfl
  · unfold RTDBSink.flush
    split
    · rfl
    · rfl
  · intro hen hne
    unfold RTDBSink.flush
    rw [if_neg (by simp [hen, List.isEmpty_iff, hne])]
    rw [if_pos href]
    rfl

/-- Witness for C4 (amended): concrete failed flush leaves the timing state
of `sinkReady` (with one pending row) untouched. -/
theorem claim_C4_amended_witness :
    (RTDBSink.flush "pi" false 1003
        { sinkReady with buffer := [sampleRow 1] }).state.lastFlush = 1000 ∧
    (RTDBSink.flush "pi" true 1003
        { sinkReady with buffer := [sampleRow 1] }).state.lastFlush = 1003 := by
  constructor
  · exact (claim_C4_amended_no_backoff "pi" 1003
      { sinkReady with buffer := [sampleRow 1] } rfl).1
  · exact (claim_C4_amended_no_backoff "pi" 1003
      { sinkReady with buffer := [sampleRow 1] } rfl).2.2.2 rfl (by decide)

/-! ### C6: FIFO drain order -/

/-- C6: pending entries are drained oldest-first.  The RTDB flush builds its
bulk-update mapping by iterating the buffer front-to-back (rows entered
the buffer in `put` order, and `put` appends at the back), so when the
rows' sink paths are pairwise distinct the mapping lists the rows in
exactly insertion order; and the Drive uploader's pass attempts queued
paths as an order-preserving selection (a sublist) of the queue, so an
entry enqueued earlier is never attempted after a later one. -/
theorem claim_C6_fifo_drain (root dev : String) (batch : List Row)
    (uploads : String → Bool) (maxItems : Nat) (q : List String)
    (hnodup : (batch.map (fun r => sinkPath root dev r.sensor r.ts)).Nodup) :
    (buildUpdates root dev batch).map Prod.snd = batch ∧
    (processLoop uploads maxItems q 0).1.Sublist q := by
  constructor
  · unfold buildUpdates
    rw [buildUpdates_go root dev batch [] (by simp) hnodup]
    simp only [List.nil_append]
    rw [List.map_map]
    exact List.map_id'' (fun x => rfl) batch
  · exact processLoop_attempts_sublist uploads maxItems q 0

/-- Witness for C6: two rows one second apart drain in insertion order, and
a mixed success/failure queue is attempted in order. -/
theorem claim_C6_witness :
    (buildUpdates "pm_readings" "pi" [sampleRow 1, sampleRow 2]).map Prod.snd
      = [sampleRow 1, sampleRow 2] ∧
    (processLoop (fun p => p = "a.csv") 50 ["a.csv", "b.csv"] 0).1.Sublist
      ["a.csv", "b.csv"] := by
  exact claim_C6_fifo_drain "pm_readings" "pi" [sampleRow 1, sampleRow 2]
    (fun p => p = "a.csv") 50 ["a.csv", "b.csv"] (by decide)

/-- `flush` either leaves the buffer untouched (no-op branch) or empties it. -/
theorem flush_state_buffer (dev : String) (wk : Bool) (now : Nat)
    (t : SinkState) :
    (RTDBSink.flush dev wk now t).state.buffer = t.buffer ∨
    (RTDBSink.flush dev wk now t).state.buffer = [] := by
  unfold RTDBSink.flush
  split
  · left; rfl
  · split
    · split
      · right; rfl
      · right; rfl
    · right; rfl

/-- The only log line `flush` can emit is the write-failure warning. -/
theorem flush_logs (dev : String) (wk : Bool) (now : Nat) (t : SinkState) :
    (RTDBSink.flush dev wk now t).logs = [] ∨
    (RTDBSink.flush dev wk now t).logs = ["RTDB flush failed"] := by
  unfold RTDBSink.flush
  split
  · left; rfl
  · split
    · split
      · left; rfl
      · right; rfl
    · left; rfl

/-- The buffer `put` hands to its flush trigger respects the cap when the
cap is at least 2. -/
theorem put_trimmed_len (buf : List Row) (r : Row) (m : Nat)
    (hm : 2 ≤ m) (hle : buf.length ≤ m) :
    ((if m ≤ buf.length then trimKeepLast buf m else buf) ++ [r]).length ≤ m := by
  split
  · have hk : ¬ (m + 1) / 2 = 0 := by omega
    have : (trimKeepLast buf m).length ≤ (m + 1) / 2 := by
      simp only [trimKeepLast, if_neg hk, List.length_drop]
      omega
    simp only [List.length_append, List.length_cons, List.length_nil]
    omega
  · simp only [List.length_append, List.length_cons, List.length_nil]
    omega

/-! ### C9: bounded in-memory buffer with oldest-first dropping -/

/-- A sink at its default-config cap of 4 used for the C9 counterexample. -/
def sinkAtCap : SinkState :=
  { sinkReady with
      buffer := [sampleRow 1, sampleRow 2, sampleRow 3, sampleRow 4],
      batchSize := 100, flushSecs := 50, maxBuffer := 4 }

/-- Counterexample to C9 as stated: with `max_buffer = 4` and four buffered
rows, the next `put` drops the two oldest rows — and logs *nothing*:
the claim's "the number of dropped entries is logged" is false (`put`
contains no log statement; the comment in the source is not a log). -/
theorem claim_C9_counterexample :
    (RTDBSink.put "pi" true 1001 (sampleRow 5) sinkAtCap).state.buffer
      = [sampleRow 3, sampleRow 4, sampleRow 5] ∧
    (RTDBSink.put "pi" true 1001 (sampleRow 5) sinkAtCap).logs = [] := by
  constructor
  · decide
  · decide

/-- C9 amended: the cap itself holds — for `max_buffer ≥ 2`, if the buffer
respects the cap before a `put` it still respects it afterwards; the trim
keeps a suffix of the buffer (so exactly the oldest entries are dropped);
but no drop count is ever logged: the only log line `put` can emit is the
flush-failure warning. -/
theorem claim_C9_amended_cap_unlogged (dev : String) (wk : Bool) (now : Nat)
    (r : Row) (s : SinkState) (l : List Row) (m : Nat)
    (hm : 2 ≤ s.maxBuffer) (hle : s.buffer.length ≤ s.maxBuffer) :
    (RTDBSink.put dev wk now r s).state.buffer.length ≤ s.maxBuffer ∧
    (trimKeepLast l m).Sublist l ∧
    (∀ msg ∈ (RTDBSink.put dev wk now r s).logs, msg = "RTDB flush failed") := by
  refine ⟨?_, ?_, ?_⟩
  · simp only [RTDBSink.put]
    split
    · simpa using hle
    · have hbuf : ((if s.maxBuffer ≤ s.buffer.length
          then trimKeepLast s.buffer s.maxBuffer else s.buffer) ++ [r]).length
            ≤ s.maxBuffer :=
        put_trimmed_len s.buffer r s.maxBuffer hm hle
      generalize hB : (if s.maxBuffer ≤ s.buffer.length
          then trimKeepLast s.buffer s.maxBuffer else s.buffer) ++ [r] = B at *
      split
      · rcases flush_state_buffer dev wk now { s with buffer := B } with h | h
        · rw [h]
          exact hbuf
        · rw [h]
          simp
      · exact hbuf
  · simp only [trimKeepLast]
    split
    · exact List.Sublist.refl l
    · exact (List.drop_sublist _ l)
  · simp only [RTDBSink.put]
    split
    · simp
    · generalize (if s.maxBuffer ≤ s.buffer.length
          then trimKeepLast s.buffer s.maxBuffer else s.buffer) ++ [r] = B
      split
      · intro msg hmsg
        rcases flush_logs dev wk now { s with buffer := B } with h | h
        · rw [h] at hmsg
          simp at hmsg
        · rw [h] at hmsg
          simpa using hmsg
      · simp

/-- Witness for C9 (amended): the concrete at-cap sink stays within its cap
of 4, trimming keeps a suffix, and no log line but the flush warning can
appear. -/
theorem claim_C9_amended_witness :
    (RTDBSink.put "pi" true 1001 (sampleRow 5) sinkAtCap).state.buffer.length ≤ 4 ∧
    (trimKeepLast [sampleRow 1, sampleRow 2, sampleRow 3] 4).Sublist
      [sampleRow 1, sampleRow 2, sampleRow 3] ∧
    (∀ msg ∈ (RTDBSink.put "pi" true 1001 (sampleRow 5) sinkAtCap).logs,
      msg = "RTDB flush failed") := by
  exact claim_C9_amended_cap_unlogged "pi" true 1001 (sampleRow 5) sinkAtCap
    [sampleRow 1, sampleRow 2, sampleRow 3] 4 (by decide) (by decide)

/-! ### C5: sink-path determinism and injectivity on identities -/

/-- A string free of the path separator. -/
def noSlash (s : String) : Prop := '/' ∉ s.data

instance (s : String) : Decidable (noSlash s) := by
  unfold noSlash; infer_instance

theorem strData_append (a b : String) : (a ++ b).data = a.data ++ b.data := rfl

theorem digitChar_inj : ∀ a < 10, ∀ b < 10,
    Nat.digitChar a = Nat.digitChar b → a = b := by decide

theorem digitChar_ne_slash : ∀ a < 10, Nat.digitChar a ≠ '/' := by decide

theorem pad2_inj {m n : Nat} (hm : m < 100) (hn : n < 100)
    (h : pad2 m = pad2 n) : m = n := by
  have hd : [Nat.digitChar (m / 10), Nat.digitChar (m % 10)]
      = [Nat.digitChar (n / 10), Nat.digitChar (n % 10)] := congrArg String.data h
  simp only [List.cons.injEq, and_true] at hd
  have h1 := digitChar_inj (m / 10) (by omega) (n / 10) (by omega) hd.1
  have h2 := digitChar_inj (m % 10) (by omega) (n % 10) (by omega) hd.2
  omega

theorem pad4_inj {m n : Nat} (hm : m < 10000) (hn : n < 10000)
    (h : pad4 m = pad4 n) : m = n := by
  have hd := congrArg String.data h
  simp only [pad4, List.cons.injEq, and_true] at hd
  have h1 := digitChar_inj (m / 1000) (by omega) (n / 1000) (by omega) hd.1
  have h2 := digitChar_inj (m / 100 % 10) (by omega) (n / 100 % 10) (by omega) hd.2.1
  have h3 := digitChar_inj (m / 10 % 10) (by omega) (n / 10 % 10) (by omega) hd.2.2.1
  have h4 := digitChar_inj (m % 10) (by omega) (n % 10) (by omega) hd.2.2.2
  omega

theorem noSlash_pad2 {n : Nat} (hn : n < 100) : noSlash (pad2 n) := by
  unfold noSlash pad2
  intro hmem
  simp only [List.mem_cons, List.not_mem_nil, or_false] at hmem
  rcases hmem with h | h
  · exact digitChar_ne_slash (n / 10) (by omega) h.symm
  · exact digitChar_ne_slash (n % 10) (by omega) h.symm

theorem noSlash_pad4 {n : Nat} (hn : n < 10000) : noSlash (pad4 n) := by
  unfold noSlash pad4
  intro hmem
  simp only [List.mem_cons, List.not_mem_nil, or_false] at hmem
  rcases hmem with h | h | h | h
  · exact digitChar_ne_slash (n / 1000) (by omega) h.symm
  · exact digitChar_ne_slash (n / 100 % 10) (by omega) h.symm
  · exact digitChar_ne_slash (n / 10 % 10) (by omega) h.symm
  · exact digitChar_ne_slash (n % 10) (by omega) h.symm

theorem noSlash_append {a b : String} (ha : noSlash a) (hb : noSlash b) :
    noSlash (a ++ b) := by
  unfold noSlash at *
  rw [strData_append]
  intro h
  rcases List.mem_append.mp h with h | h
  · exact ha h
  · exact hb h

theorem noSlash_ymd {t : ThaiTime} (hv : t.valid) : noSlash (ymdStr t) := by
  obtain ⟨h1, h2, h3, _, _, _⟩ := hv
  exact noSlash_append (noSlash_append (noSlash_pad4 h1) (noSlash_pad2 h2))
    (noSlash_pad2 h3)

theorem noSlash_hms {t : ThaiTime} (hv : t.valid) : noSlash (hmsStr t) := by
  obtain ⟨_, _, _, h4, h5, h6⟩ := hv
  exact noSlash_append (noSlash_append (noSlash_pad2 h4) (noSlash_pad2 h5))
    (noSlash_pad2 h6)

/-- Splitting at the first separator: if neither prefix contains `'/'`,
equal separated concatenations have equal components. -/
theorem append_slash_inj : ∀ (a b x y : List Char),
    '/' ∉ a → '/' ∉ b → a ++ '/' :: x = b ++ '/' :: y → a = b ∧ x = y := by
  intro a
  induction a with
  | nil =>
    intro b x y _ hb h
    cases b with
    | nil => simpa using h
    | cons c cs =>
      simp only [List.nil_append, List.cons_append, List.cons.injEq] at h
      exact absurd (by simp [← h.1]) hb
  | cons c cs ih =>
    intro b x y ha hb h
    cases b with
    | nil =>
      simp only [List.cons_append, List.nil_append, List.cons.injEq] at h
      exact absurd (by simp [h.1]) ha
    | cons d ds =>
      simp only [List.cons_append, List.cons.injEq] at h
      obtain ⟨rfl, h2⟩ := h
      have := ih ds x y (fun hc => ha (List.mem_cons_of_mem _ hc))
        (fun hc => hb (List.mem_cons_of_mem _ hc)) h2
      exact ⟨by rw [this.1], this.2⟩

theorem ymd_inj {t u : ThaiTime} (ht : t.valid) (hu : u.valid)
    (h : ymdStr t = ymdStr u) :
    t.year = u.year ∧ t.month = u.month ∧ t.day = u.day := by
  obtain ⟨ht1, ht2, ht3, _, _, _⟩ := ht
  obtain ⟨hu1, hu2, hu3, _, _, _⟩ := hu
  have hd := congrArg String.data h
  simp only [ymdStr, strData_append, pad4, pad2, List.cons_append,
    List.nil_append, List.cons.injEq, and_true] at hd
  obtain ⟨a1, a2, a3, a4, b1, b2, c1, c2⟩ := hd
  refine ⟨?_, ?_, ?_⟩
  · have e1 := digitChar_inj _ (by omega) _ (by omega) a1
    have e2 := digitChar_inj _ (by omega) _ (by omega) a2
    have e3 := digitChar_inj _ (by omega) _ (by omega) a3
    have e4 := digitChar_inj _ (by omega) _ (by omega) a4
    omega
  · have e1 := digitChar_inj _ (by omega) _ (by omega) b1
    have e2 := digitChar_inj _ (by omega) _ (by omega) b2
    omega
  · have e1 := digitChar_inj _ (by omega) _ (by omega) c1
    have e2 := digitChar_inj _ (by omega) _ (by omega) c2
    omega

theorem hms_inj {t u : ThaiTime} (ht : t.valid) (hu : u.valid)
    (h : hmsStr t = hmsStr u) :
    t.hour = u.hour ∧ t.minute = u.minute ∧ t.second = u.second := by
  obtain ⟨_, _, _, ht4, ht5, ht6⟩ := ht
  obtain ⟨_, _, _, hu4, hu5, hu6⟩ := hu
  have hd := congrArg String.data h
  simp only [hmsStr, strData_append, pad2, List.cons_append,
    List.nil_append, List.cons.injEq, and_true] at hd
  obtain ⟨a1, a2, b1, b2, c1, c2⟩ := hd
  refine ⟨?_, ?_, ?_⟩
  · have e1 := digitChar_inj _ (by omega) _ (by omega) a1
    have e2 := digitChar_inj _ (by omega) _ (by omega) a2
    omega
  · have e1 := digitChar_inj _ (by omega) _ (by omega) b1
    have e2 := digitChar_inj _ (by omega) _ (by omega) b2
    omega
  · have e1 := digitChar_inj _ (by omega) _ (by omega) c1
    have e2 := digitChar_inj _ (by omega) _ (by omega) c2
    omega

/-- C5: the sink path is a function of the record (determinism is
definitional: `sinkPath` is a pure function of deviceId, sensor and the
record's parsed Thai timestamp), and it is injective on identities:
two records whose (deviceId, timestamp, sensor) identities differ map to
different paths, provided the deviceId and sensor tags contain no `/`
(true for every sensor tag the program uses — "indoor", "outdoor",
"bme280", "misc" — and for hostnames) and the timestamps are real
calendar times. -/
theorem claim_C5_path_injective (root dev₁ dev₂ sn₁ sn₂ : String)
    (t₁ t₂ : ThaiTime)
    (hd₁ : noSlash dev₁) (hd₂ : noSlash dev₂)
    (hs₁ : noSlash sn₁) (hs₂ : noSlash sn₂)
    (hv₁ : t₁.valid) (hv₂ : t₂.valid)
    (hne : ¬(dev₁ = dev₂ ∧ sn₁ = sn₂ ∧ t₁ = t₂)) :
    sinkPath root dev₁ sn₁ t₁ ≠ sinkPath root dev₂ sn₂ t₂ := by
  intro heq
  apply hne
  have hd := congrArg String.data heq
  simp only [sinkPath, strData_append, List.append_assoc, List.nil_append,
    List.singleton_append, List.cons_append, List.cons.injEq, true_and] at hd
  have hd' := @List.append_cancel_left Char root.data _ _ hd
  simp only [List.cons.injEq, true_and] at hd'
  obtain ⟨hdev, hrest⟩ := append_slash_inj _ _ _ _ hd₁ hd₂ hd'
  obtain ⟨hsn, hrest2⟩ := append_slash_inj _ _ _ _ hs₁ hs₂ hrest
  obtain ⟨hymd, hhms⟩ := append_slash_inj _ _ _ _
    (noSlash_ymd hv₁) (noSlash_ymd hv₂) hrest2
  have hy := ymd_inj hv₁ hv₂ (String.ext hymd)
  have hh := hms_inj hv₁ hv₂ (String.ext hhms)
  refine ⟨String.ext hdev, String.ext hsn, ?_⟩
  cases t₁
  cases t₂
  simp_all

/-- Witness for C5: same device and second, different sensor tag — the two
paths differ. -/
theorem claim_C5_witness :
    sinkPath "pm_readings" "pi5" "indoor" ⟨2024, 3, 7, 9, 5, 30⟩ ≠
    sinkPath "pm_readings" "pi5" "outdoor" ⟨2024, 3, 7, 9, 5, 30⟩ := by
  exact claim_C5_path_injective "pm_readings" "pi5" "pi5" "indoor" "outdoor"
    ⟨2024, 3, 7, 9, 5, 30⟩ ⟨2024, 3, 7, 9, 5, 30⟩
    (by decide) (by decide) (by decide) (by decide) (by decide) (by decide)
    (by decide)
